import Mathlib

/-!
Shallow embedding of the RISC-V interpreter core
(`emulation/src/riscv/interpreter/main.rs`) of the turbo-emulator
repository, together with proofs about its trap engine, block cache,
executor top loop and user-mode syscall bridge.

Machine integers are embedded as `Nat` with explicit 64-bit masking where
the source relies on `u64` semantics.  Rust `panic!` / `unimplemented!` /
failing `unwrap` are embedded as a `none` / dedicated `panic` result.
Collaborator crates that are not part of the interpreter source
(memory subsystem, instruction decoders, syscall dispatch, signal
delivery) are embedded as explicit oracle parameters, and small helper
functions of those crates that the interpreter calls are modelled from
the specification; each such definition is marked `Modelled from the
spec:` in its doc comment.
-/

/-- Modelled from the spec: `Xlen` from `riscv::common` — architectural
integer width, 32 or 64, fixed at construction. -/
inductive Xlen where
  | X32
  | X64
deriving DecidableEq

/-- Modelled from the spec: `xlen2bits` from `riscv::common`. -/
def xlen2bits : Xlen → Nat
  | .X32 => 32
  | .X64 => 64

/-- Modelled from the spec: `xlen2misa` from `riscv::common` — the 2-bit
`mxl` encoding of the width (1 for XLEN=32, 2 for XLEN=64); the
`mstatus` fixup forces `sxl`/`uxl` to this value. -/
def xlen2misa : Xlen → Nat
  | .X32 => 1
  | .X64 => 2

/-- Modelled from the spec: `Priv` from `riscv::common` — current
privilege level of the hart. -/
inductive Priv where
  | User
  | Supervisor
  | Machine
deriving DecidableEq

/-- Modelled from the spec: `get_privilege_encoding` from
`riscv::common` — the architectural privilege encoding
(User = 0, Supervisor = 1, Machine = 3). -/
def get_privilege_encoding : Priv → Nat
  | .User => 0
  | .Supervisor => 1
  | .Machine => 3

/-- Modelled from the spec: the numeric value of `Priv::Supervisor as
u64` used by `handle_trap`'s delegation test (the discriminant equals
the architectural encoding 1, so the test reads "at supervisor or user
privilege"). -/
def privSupervisorAsU64 : Nat := 1

/-- Modelled from the spec: a trap cause from `riscv::common` — either a
synchronous exception or an interrupt, identified by its numeric code. -/
inductive RVCause where
  | exc (code : Nat)
  | intr (code : Nat)
deriving DecidableEq

/-- Modelled from the spec: the `IllegalInstruction` exception cause
(standard code 2). -/
def IllegalInstruction : RVCause := .exc 2

/-- Modelled from the spec: the `EnvironmentCallFromUMode` exception
cause (standard code 8). -/
def EnvironmentCallFromUMode : RVCause := .exc 8

/-- Modelled from the spec: the `EnvironmentCallFromMMode` exception
cause (standard code 11); user-mode ecalls carry this cause. -/
def EnvironmentCallFromMMode : RVCause := .exc 11

/-- The `Trap` record `{cause, tval}` from `riscv::common` as consumed by
`handle_trap` and `set_trap`. -/
structure Trap where
  ttype : RVCause
  val : Nat
deriving DecidableEq

/-- Modelled from the spec: `get_trap_cause` from `riscv::common` — the
encoded cause; the RISC-V convention places the interrupt bit at bit
`XLEN-1`. -/
def get_trap_cause (t : Trap) (x : Xlen) : Nat :=
  match t.ttype with
  | .exc c => c
  | .intr c => (1 <<< (xlen2bits x - 1)) ||| c

/-- Bitwise complement at `u64` width, written `!x` in the source. -/
def not64 (x : Nat) : Nat := 0xFFFFFFFFFFFFFFFF ^^^ x

/-- Modelled from the spec: `RISCV_PAGE_SIZE` from `riscv::mem` (4 KiB
pages). -/
def RISCV_PAGE_SIZE : Nat := 4096

/-- Modelled from the spec: `RISCV_PAGE_OFFSET` from `riscv::mem` — the
page offset mask. -/
def RISCV_PAGE_OFFSET : Nat := 0xfff

/-- Modelled from the spec: `RISCV_PAGE_SHIFT` from `riscv::mem`. -/
def RISCV_PAGE_SHIFT : Nat := 12

/-- Modelled from the spec: CSR index of `mstatus` (from
`riscv::interpreter::consts`; standard addresses). -/
def CSR_MSTATUS_ADDRESS : Nat := 0x300

/-- Modelled from the spec: CSR index of `medeleg`. -/
def CSR_MEDELEG_ADDRESS : Nat := 0x302

/-- Modelled from the spec: CSR index of `mideleg`. -/
def CSR_MIDELEG_ADDRESS : Nat := 0x303

/-- Modelled from the spec: CSR index of `mtvec`. -/
def CSR_MTVEC_ADDRESS : Nat := 0x305

/-- Modelled from the spec: CSR index of `mepc`. -/
def CSR_MEPC_ADDRESS : Nat := 0x341

/-- Modelled from the spec: CSR index of `mcause`. -/
def CSR_MCAUSE_ADDRESS : Nat := 0x342

/-- Modelled from the spec: CSR index of `mtval`. -/
def CSR_MTVAL_ADDRESS : Nat := 0x343

/-- Modelled from the spec: CSR index of `sstatus`. -/
def CSR_SSTATUS_ADDRESS : Nat := 0x100

/-- Modelled from the spec: CSR index of `stvec`. -/
def CSR_STVEC_ADDRESS : Nat := 0x105

/-- Modelled from the spec: CSR index of `sepc`. -/
def CSR_SEPC_ADDRESS : Nat := 0x141

/-- Modelled from the spec: CSR index of `scause`. -/
def CSR_SCAUSE_ADDRESS : Nat := 0x142

/-- Modelled from the spec: CSR index of `stval`. -/
def CSR_STVAL_ADDRESS : Nat := 0x143

/-- A decoded-instruction record (`RiscvInstr` in the source).  The
opcode payload `args` and the handler function pointer are data of the
external decoder crates; they are represented by an opaque identifier
`uid` that the execution oracle interprets. -/
structure RiscvInstr where
  inc_by : Nat
  uid : Nat
deriving DecidableEq

/-- A basic block (`RiscvBlock` in the source): physical begin address,
physical address of the last instruction's first byte, and the decoded
sequence. -/
structure RiscvBlock where
  begin : Nat
  end_ : Nat
  instrs : List RiscvInstr
deriving DecidableEq

/-- Hart state (`RiscvInt` in the source).  The `memsource` and
`user_struct` handles are external collaborator objects and are
represented by the oracles passed to the execution functions. -/
structure RiscvInt where
  regs : Nat → Nat
  fregs : Nat → Nat
  pc : Nat
  want_pc : Option Nat
  xlen : Xlen
  csr : Nat → Nat
  trap_pc : Nat
  instr : Nat → List RiscvBlock
  trap : Option Trap
  current_block : RiscvBlock
  is_compressed : Bool
  changed_pc : Bool
  prvmode : Priv
  stop_translating : Bool
  stop_exec : Bool
  cache_enabled : Bool
  wfi : Bool
  usermode : Bool
  is_reservation : Bool
  res_val : Nat
  res_len : Nat

/-- `RiscvInt::init_systemmode`: all registers and CSRs zero, privilege
Machine, system mode. -/
def init_systemmode (xlen : Xlen) : RiscvInt :=
  { regs := fun _ => 0
    fregs := fun _ => 0
    pc := 0
    want_pc := none
    xlen := xlen
    csr := fun _ => 0
    trap_pc := 0
    instr := fun _ => []
    trap := none
    current_block := { begin := 0, end_ := 0, instrs := [] }
    is_compressed := false
    changed_pc := false
    prvmode := .Machine
    stop_translating := false
    stop_exec := false
    cache_enabled := false
    wfi := false
    usermode := false
    is_reservation := false
    res_val := 0
    res_len := 0 }

/-- `RiscvInt::init_usermode`: like system mode but with the `usermode`
flag set; the privilege field is nominally Machine (an artifact noted by
the spec). -/
def init_usermode (xlen : Xlen) : RiscvInt :=
  { init_systemmode xlen with usermode := true }

/-- `RiscvInt::get_pc_of_current_instr`. -/
def get_pc_of_current_instr (s : RiscvInt) : Nat := s.pc

/-- `RiscvInt::change_priv`. -/
def change_priv (s : RiscvInt) (privs : Priv) : RiscvInt :=
  { s with prvmode := privs }

/-- `RiscvInt::set_trap`: records the trap, captures the trapped PC and
requests the executor to stop. -/
def set_trap (s : RiscvInt) (trp : Trap) : RiscvInt :=
  { s with trap := some trp
           trap_pc := get_pc_of_current_instr s
           stop_exec := true }

/-- The interrupt test of `handle_trap`: bit `XLEN-1` of the encoded
cause. -/
def trapIsInterrupt (t : Trap) (x : Xlen) : Bool :=
  (1 <<< (xlen2bits x - 1)) &&& get_trap_cause t x != 0

/-- The numeric cause as computed by `handle_trap`: the encoded cause
with the interrupt bit masked off for interrupts. -/
def trapNumericCause (t : Trap) (x : Xlen) : Nat :=
  if trapIsInterrupt t x then
    get_trap_cause t x &&& not64 (1 <<< (xlen2bits x - 1))
  else
    get_trap_cause t x

/-- The delegation CSR value `hsdeleg` consulted by `handle_trap`:
`mideleg` for interrupts and `medeleg` for exceptions when the current
privilege is at most Supervisor, and 0 otherwise. -/
def trapDelegCsr (s : RiscvInt) (t : Trap) : Nat :=
  if trapIsInterrupt t s.xlen then
    if get_privilege_encoding s.prvmode ≤ privSupervisorAsU64 then
      s.csr CSR_MIDELEG_ADDRESS
    else 0
  else
    if get_privilege_encoding s.prvmode ≤ privSupervisorAsU64 then
      s.csr CSR_MEDELEG_ADDRESS
    else 0

/-- The condition under which `handle_trap` delivers the trap in
supervisor mode: privilege at most Supervisor, numeric cause within
XLEN range, and the delegation bit for the cause set. -/
def supervisorDelegated (s : RiscvInt) (t : Trap) : Bool :=
  decide (get_privilege_encoding s.prvmode ≤ privSupervisorAsU64) &&
  decide (trapNumericCause t s.xlen < xlen2bits s.xlen) &&
  ((trapDelegCsr s t >>> trapNumericCause t s.xlen) &&& 1 != 0)

/-- `RiscvInt::handle_trap`: deliver a trap `{cause, tval}` raised at
`trapped_pc`, either in supervisor mode (when delegated) or in machine
mode, updating the vector PC, cause/epc/tval CSRs and the status
register, and switching privilege. -/
def handle_trap (s : RiscvInt) (trp : Trap) (trapped_pc : Nat) : RiscvInt :=
  let intr := trapIsInterrupt trp s.xlen
  let reason := trapNumericCause trp s.xlen
  if supervisorDelegated s trp then
    let stvec := s.csr CSR_STVEC_ADDRESS
    let vector := if (stvec &&& 1 != 0) && intr then 4 * reason else 0
    let status := s.csr CSR_SSTATUS_ADDRESS
    let sie := (status >>> 1) &&& 1
    let status' := (status &&& not64 0x122) ||| (sie <<< 5) |||
      ((get_privilege_encoding s.prvmode &&& 1) <<< 8)
    change_priv
      { s with
        pc := ((stvec &&& not64 1) + vector) % 2 ^ 64
        csr := fun i =>
          if i = CSR_SCAUSE_ADDRESS then reason
          else if i = CSR_SEPC_ADDRESS then trapped_pc
          else if i = CSR_STVAL_ADDRESS then trp.val
          else if i = CSR_SSTATUS_ADDRESS then status'
          else s.csr i }
      .Supervisor
  else
    let mtvec := s.csr CSR_MTVEC_ADDRESS
    let vector := if (mtvec &&& 1 != 0) && intr then 4 * reason else 0
    let status := s.csr CSR_MSTATUS_ADDRESS
    let mie := (status >>> 3) &&& 1
    let status' := (status &&& not64 0x1888) ||| (mie <<< 7) |||
      (get_privilege_encoding s.prvmode <<< 11)
    change_priv
      { s with
        pc := ((mtvec &&& not64 1) + vector) % 2 ^ 64
        csr := fun i =>
          if i = CSR_MCAUSE_ADDRESS then reason
          else if i = CSR_MEPC_ADDRESS then trapped_pc
          else if i = CSR_MTVAL_ADDRESS then trp.val
          else if i = CSR_MSTATUS_ADDRESS then status'
          else s.csr i }
      .Machine

/-- `RiscvInt::mstatus_fixup`: clear bit 6; when XLEN is 64 also clear
bits 36 and 37 and force `sxl`/`uxl` (bits 32-35) to the machine's
`mxl` encoding. -/
def mstatus_fixup (s : RiscvInt) (m : Nat) : Nat :=
  let mstatus := m &&& not64 (1 <<< 6)
  let mstatus :=
    if s.xlen = Xlen.X64 then
      (mstatus &&& not64 (1 <<< 36)) &&& not64 (1 <<< 37)
    else mstatus
  if s.xlen = Xlen.X64 then
    let misa := xlen2misa s.xlen
    let mstatus := (mstatus &&& not64 (0b11 <<< 32)) ||| ((misa &&& 0b11) <<< 32)
    (mstatus &&& not64 (0b11 <<< 34)) ||| ((misa &&& 0b11) <<< 34)
  else mstatus

/-- Modelled from the spec: the host-neutral syscall enumeration
(`Systype` from `linux_usermode::main`); unknown architectural numbers
surface as the recognizable unsupported variant. -/
inductive Systype where
  | exit
  | write
  | unsupported (n : Nat)
deriving DecidableEq

/-- Modelled from the spec: the fixed translation table from the
architectural syscall number (a `u16`) to the host-neutral enumeration
(93 is exit and 64 is write in the RISC-V Linux numbering used by the
spec's scenarios); unknown numbers map to the unsupported variant. -/
def riscv_syscall_table (n : Nat) : Systype :=
  if n = 93 then .exit else if n = 64 then .write else .unsupported n

/-- Modelled from the spec: `riscv_translate_syscall` from
`riscv::ume::defs` — the table wrapped in the `Option` that the
bridge's `unwrap` consumes; because unknown numbers surface as the
unsupported variant the result is always `some`. -/
def riscv_translate_syscall (n : Nat) : Option Systype :=
  some (riscv_syscall_table n)

/-- The argument record handed to the user-mode runtime (`SyscallIn`
from `linux_usermode::main`). -/
structure SyscallIn where
  syscall : Systype
  args : List Nat
deriving DecidableEq

/-- The result record returned by the user-mode runtime: a primary
value for `a0` and an optional secondary value for `a1`. -/
structure SyscallOut where
  ret1 : Nat
  ret2 : Option Nat
deriving DecidableEq

/-- The user-mode runtime's `dispatch` entry point is external; it may
mutate the whole hart and returns the syscall result. -/
def DispatchOracle : Type := RiscvInt → SyscallIn → RiscvInt × SyscallOut

/-- `RiscvInt::handle_syscall`: read the syscall number from `a7`
(index 17), translate it (a failing `unwrap` is `none`), marshal
`a0..a5` (indices 10..15), dispatch, write the primary result to `a0`
and the secondary result, when present, to `a1`. -/
def handle_syscall (disp : DispatchOracle) (s : RiscvInt) : Option RiscvInt :=
  let syscallnum := s.regs 17
  match riscv_translate_syscall (syscallnum % 2 ^ 16) with
  | none => none
  | some systype =>
    let sysin : SyscallIn :=
      { syscall := systype
        args := [s.regs 10, s.regs 11, s.regs 12, s.regs 13, s.regs 14, s.regs 15, 0] }
    let pair := disp s sysin
    let s1 := pair.1
    let out := pair.2
    let s2 := { s1 with regs := fun i => if i = 10 then out.ret1 else s1.regs i }
    some (match out.ret2 with
      | some xx => { s2 with regs := fun i => if i = 11 then xx else s2.regs i }
      | none => s2)

/-- Oracles standing for the external collaborators the executor calls:
the memory subsystem (`riscv::mem`), the two decoder crates and the
per-instruction handler functions.  `read32v` is the virtual,
side-effecting fetch of the uncached loop; `read16p` the physical fetch
of the block builder; `dec16` / `dec32` the uncached-mode decode (which
executes the instruction's effect on the hart, `none` meaning the
decoder returned false); `decb16` / `decb32` the build-time decode
returning the opaque payload of the appended record and the
`stop_translating` request, `none` again meaning unrecognized;
`virt2phys` the page walk for Execute access with `mem_trap` building
the corresponding fault; `runInstr` executes a cached record by its
payload. -/
structure ExecOracle where
  read32v : RiscvInt → Nat → Except Trap Nat
  read16p : Nat → Except Trap Nat
  dec16 : RiscvInt → Nat → Option RiscvInt
  dec32 : RiscvInt → Nat → Option RiscvInt
  decb16 : Nat → Option (Nat × Bool)
  decb32 : Nat → Option (Nat × Bool)
  virt2phys : RiscvInt → Nat → Option Nat
  mem_trap : RiscvInt → Nat → Trap
  runInstr : RiscvInt → Nat → RiscvInt

/-- Outcome of one iteration of the uncached loop body. -/
inductive StepOut where
  | fault (t : Trap)
  | panic
  | cont (s : RiscvInt)

/-- Outcome of an executor entry point: `ok` and `fault` mirror the
source's `Result<(), Trap>`, `panic` a Rust panic, and `fuelOut` is the
modelling artifact of running out of loop fuel. -/
inductive ExecResult where
  | ok (s : RiscvInt)
  | fault (s : RiscvInt) (t : Trap)
  | panic
  | fuelOut (s : RiscvInt)

/-- One iteration of the body of `RiscvInt::exec_one_by_one`: fetch a
32-bit word at `pc`, decode as compressed or full-width (an
unrecognized encoding reaches `illegal_instr`, whose body starts with
`panic!()`), advance `pc`, zero register 0. -/
def uncachedStep (orc : ExecOracle) (s : RiscvInt) : StepOut :=
  match orc.read32v s s.pc with
  | .error t => .fault t
  | .ok instr =>
    if instr &&& 0x3 != 0x3 then
      let s1 := { s with is_compressed := true }
      match orc.dec16 s1 (instr &&& 0xffff) with
      | none => .panic
      | some s2 =>
        let s3 := { s2 with pc := (s2.pc + 2) % 2 ^ 64 }
        .cont { s3 with regs := fun i => if i = 0 then 0 else s3.regs i }
    else
      let s1 := { s with is_compressed := false }
      match orc.dec32 s1 instr with
      | none => .panic
      | some s2 =>
        let s3 := { s2 with pc := (s2.pc + 4) % 2 ^ 64 }
        .cont { s3 with regs := fun i => if i = 0 then 0 else s3.regs i }

/-- `RiscvInt::exec_one_by_one`: the uncached fetch-decode loop, run
until `stop_exec` or a fetch trap (with explicit fuel). -/
def exec_one_by_one (orc : ExecOracle) : Nat → RiscvInt → ExecResult
  | 0, s => .fuelOut s
  | n + 1, s =>
    match uncachedStep orc s with
    | .fault t => .fault s t
    | .panic => .panic
    | .cont s' => if s'.stop_exec then .ok s' else exec_one_by_one orc n s'

/-- The linear scan inside `RiscvInt::check_block`: find the block with
the requested begin address; a block violating the single-page
invariant is a bug check (`panic!`, embedded as `none`). -/
def checkFind (l : List RiscvBlock) (addr : Nat) : Option (Option RiscvBlock) :=
  match l with
  | [] => some none
  | b :: rest =>
    if b.begin = addr then
      if (b.begin &&& not64 RISCV_PAGE_OFFSET) ^^^ (b.end_ &&& not64 RISCV_PAGE_OFFSET) != 0 then
        none
      else
        some (some b)
    else checkFind rest addr

/-- `RiscvInt::check_block`: look up a block by physical begin address
within its page's list. -/
def check_block (idx : Nat → List RiscvBlock) (addr : Nat) : Option (Option RiscvBlock) :=
  checkFind (idx (addr >>> RISCV_PAGE_SHIFT)) addr

/-- Outcome of the block builder: a fetch error propagated by `?` (the
partially mutated hart and the trap), a panic (`illegal_instr` or the
`assert_eq!` on `cache_enabled`), or normal completion. -/
inductive BuildOut where
  | fault (s : RiscvInt) (t : Trap)
  | panic
  | ok (s : RiscvInt)

/-- Append the record the decoder produced to the current block and set
its `inc_by` (the source sets it on the just-appended record via
`last_mut`), recording a `stop_translating` request of the decoder. -/
def appendInstr (s : RiscvInt) (uid : Nat) (stopT : Bool) (inc : Nat) : RiscvInt :=
  { s with
    current_block :=
      { s.current_block with
        instrs := s.current_block.instrs ++ [{ inc_by := inc, uid := uid }] }
    stop_translating := s.stop_translating || stopT }

/-- Close the current block (`end` is the address of the last consumed
instruction's first byte, `iaddr - inc_by`) and append it to its page's
list in the block index. -/
def build_finish (s : RiscvInt) (iaddr inc : Nat) : RiscvInt :=
  let blk := { s.current_block with end_ := iaddr - inc }
  let hashaddr := blk.begin >>> RISCV_PAGE_SHIFT
  { s with
    current_block := blk
    instr := fun k => if k = hashaddr then s.instr k ++ [blk] else s.instr k }

/-- The translation loop of `RiscvInt::build_exec`: while at least two
bytes remain on the page, fetch 16 bits; a compressed encoding is
decoded directly, a full-width one requires four remaining bytes (else
the loop breaks without consuming); decode failure reaches
`illegal_instr`, which `panic!`s; after each consumed instruction the
address advances by `inc_by` and the remaining count shrinks, and a
`stop_translating` request ends the block.  The structural `fuel`
argument starts at the initial remaining count; since every iteration
consumes at least two remaining bytes but only one unit of fuel, fuel
can only run out when fewer than two bytes remain, so the fuel-0 case
returns exactly the loop-exit result. -/
def build_loop (orc : ExecOracle) : Nat → RiscvInt → Nat → Nat → Nat → BuildOut
  | 0, s, iaddr, _maxCount, inc => .ok (build_finish s iaddr inc)
  | fuel + 1, s, iaddr, maxCount, inc =>
    if 2 ≤ maxCount then
      match orc.read16p iaddr with
      | .error t => .fault s t
      | .ok instr_lower =>
        if instr_lower &&& 0x3 != 0x3 then
          let s1 := { s with is_compressed := true }
          match orc.decb16 (instr_lower &&& 0xffff) with
          | none => .panic
          | some pr =>
            let s2 := appendInstr s1 pr.1 pr.2 2
            if s2.stop_translating then .ok (build_finish s2 (iaddr + 2) 2)
            else build_loop orc fuel s2 (iaddr + 2) (maxCount - 2) 2
        else
          if maxCount < 4 then .ok (build_finish s iaddr inc)
          else
            match orc.read16p (iaddr + 2) with
            | .error t => .fault s t
            | .ok instr_high =>
              let realinstr := (instr_high <<< 16) ||| instr_lower
              let s1 := { s with is_compressed := false }
              match orc.decb32 realinstr with
              | none => .panic
              | some pr =>
                let s2 := appendInstr s1 pr.1 pr.2 4
                if s2.stop_translating then .ok (build_finish s2 (iaddr + 4) 4)
                else build_loop orc fuel s2 (iaddr + 4) (maxCount - 4) 4
    else .ok (build_finish s iaddr inc)

/-- `RiscvInt::build_exec`: reset `stop_translating`, start a fresh
current block at `addr` (the `assert_eq!` on `cache_enabled` panics when
the cache is off), and run the translation loop over the rest of the
page. -/
def build_exec (orc : ExecOracle) (s : RiscvInt) (addr : Nat) : BuildOut :=
  let s0 :=
    { s with
      stop_translating := false
      current_block := { s.current_block with begin := addr, instrs := [] } }
  if s0.cache_enabled = false then .panic
  else
    build_loop orc (RISCV_PAGE_SIZE - (addr &&& RISCV_PAGE_OFFSET)) s0 addr
      (RISCV_PAGE_SIZE - (addr &&& RISCV_PAGE_OFFSET)) 0

/-- The per-record loop of `RiscvInt::exec_block_inner`: set
`is_compressed` from `inc_by`, run the handler, advance `pc`, zero
register 0, and break on `stop_exec`. -/
def exec_block_go (orc : ExecOracle) : List RiscvInstr → RiscvInt → RiscvInt
  | [], s => s
  | z :: rest, s =>
    let s1 := { s with is_compressed := z.inc_by = 2 }
    let s2 := orc.runInstr s1 z.uid
    let s3 := { s2 with pc := (s2.pc + z.inc_by) % 2 ^ 64 }
    let s4 := { s3 with regs := fun i => if i = 0 then 0 else s3.regs i }
    if s4.stop_exec then s4 else exec_block_go orc rest s4

/-- `RiscvInt::exec_block_inner`: clear `stop_exec` and run the block's
records in order. -/
def exec_block_inner (orc : ExecOracle) (s : RiscvInt) (blk : RiscvBlock) : RiscvInt :=
  exec_block_go orc blk.instrs { s with stop_exec := false }

/-- `RiscvInt::exec_cached_int`: each iteration computes the bytes
remaining on the current page at `pc`; when fewer than 4 remain the
cache is disabled, `stop_exec` is set and one instruction is executed
through the uncached loop; otherwise the PC is translated (a fault is
surfaced as a trap), the block is looked up or built (the discarded
`Result` of `build_exec` followed by `check_block(..).unwrap()` turns a
build failure into a panic) and executed. -/
def exec_cached_int (orc : ExecOracle) : Nat → RiscvInt → ExecResult
  | 0, s => .fuelOut s
  | n + 1, s =>
    let curpc := get_pc_of_current_instr s
    let maxCount := RISCV_PAGE_SIZE - (curpc &&& RISCV_PAGE_OFFSET)
    if maxCount < 4 then
      exec_one_by_one orc (n + 1) { s with stop_exec := true, cache_enabled := false }
    else
      match orc.virt2phys s curpc with
      | none => .fault { s with stop_exec := true } (orc.mem_trap s curpc)
      | some physpc =>
        match check_block s.instr physpc with
        | none => .panic
        | some (some blk) =>
          let s2 := exec_block_inner orc s blk
          if s2.stop_exec then .ok s2 else exec_cached_int orc n s2
        | some none =>
          let built := build_exec orc s physpc
          match built with
          | .panic => .panic
          | .fault s' _ =>
            match check_block s'.instr physpc with
            | none => .panic
            | some none => .panic
            | some (some blk) =>
              let s2 := exec_block_inner orc s' blk
              if s2.stop_exec then .ok s2 else exec_cached_int orc n s2
          | .ok s' =>
            match check_block s'.instr physpc with
            | none => .panic
            | some none => .panic
            | some (some blk) =>
              let s2 := exec_block_inner orc s' blk
              if s2.stop_exec then .ok s2 else exec_cached_int orc n s2

/-- The thread-local signal machinery (`SIGNAL_AVAIL` / `SINFO` with the
external `setup_rt_frame` builder) as an oracle: a pending flag and the
frame-builder's effect on the hart. -/
structure SigOracle where
  pending : Bool
  deliver : RiscvInt → RiscvInt

/-- The tail of an iteration of `RiscvInt::run` after the trap drain
(signal poll, `want_pc` commit, `wfi` check — `unimplemented!()`, hence
`none` — and the final clearing of `stop_exec`). -/
def run_tail (sig : SigOracle) (s : RiscvInt) : Option RiscvInt :=
  let s1 := if sig.pending then sig.deliver s else s
  let s2 :=
    match s1.want_pc with
    | some f => { s1 with pc := f, want_pc := none }
    | none => s1
  if s2.wfi then none
  else some { s2 with stop_exec := false }

/-- The trap drain of `RiscvInt::run` (followed by the iteration tail):
in user mode an `EnvironmentCallFromMMode` trap invokes the syscall
bridge, clears `stop_exec` and the trap slot and falls through to the
tail, while any other user-mode trap is the fatal
"Protection error" panic; in system mode the trap engine runs with the
saved `trap_pc`, after which `trap_pc`, the trap slot, `want_pc`, `wfi`
and `stop_exec` are all reset and the loop continues immediately
(skipping the tail). -/
def run_after_exec (sig : SigOracle) (disp : DispatchOracle) (s : RiscvInt) :
    Option RiscvInt :=
  match s.trap with
  | some trp =>
    if s.usermode then
      if trp.ttype = EnvironmentCallFromMMode then
        match handle_syscall disp s with
        | none => none
        | some s1 => run_tail sig { s1 with stop_exec := false, trap := none }
      else none
    else
      let s1 := handle_trap s trp s.trap_pc
      some { s1 with trap_pc := 0, trap := none, want_pc := none,
                     wfi := false, stop_exec := false }
  | none => run_tail sig s

/-- The cached branch of an iteration of `RiscvInt::run`: run
`exec_cached_int`, fold an `Err` into the trap slot, and re-enable the
cache before the trap drain. -/
inductive PhaseOut where
  | cont (s : RiscvInt)
  | halt
  | fuelOut (s : RiscvInt)

/-- The exec phase of one iteration of `RiscvInt::run` when
`cache_enabled` holds. -/
def cached_phase (orc : ExecOracle) (fuel : Nat) (s : RiscvInt) : PhaseOut :=
  match exec_cached_int orc fuel s with
  | .ok s1 => .cont { s1 with cache_enabled := true }
  | .fault s1 t => .cont { { s1 with trap := some t } with cache_enabled := true }
  | .panic => .halt
  | .fuelOut s1 => .fuelOut s1

/-- The exec phase of one iteration of `RiscvInt::run` when the cache is
disabled. -/
def uncached_phase (orc : ExecOracle) (fuel : Nat) (s : RiscvInt) : PhaseOut :=
  match exec_one_by_one orc fuel s with
  | .ok s1 => .cont s1
  | .fault s1 t => .cont { s1 with trap := some t }
  | .panic => .halt
  | .fuelOut s1 => .fuelOut s1

/-- One full iteration of the top-level loop `RiscvInt::run`: the exec
phase selected by `cache_enabled`, then the trap drain and tail. -/
def run_iteration (orc : ExecOracle) (sig : SigOracle) (disp : DispatchOracle)
    (fuel : Nat) (s : RiscvInt) : PhaseOut :=
  let ph := if s.cache_enabled then cached_phase orc fuel s
            else uncached_phase orc fuel s
  match ph with
  | .cont s1 =>
    match run_after_exec sig disp s1 with
    | some s2 => .cont s2
    | none => .halt
  | .halt => .halt
  | .fuelOut s1 => .fuelOut s1

/-- `RiscvInt::illegal_instr`: the body begins with `panic!(); // for
now`, so the trap-raising code after it (a `set_trap` with cause
`IllegalInstruction` and `tval` the current PC) is unreachable dead
code; calling the function aborts the emulator. -/
def illegal_instr (_s : RiscvInt) : Option RiscvInt := none

/-- Bit `i` of a 64-bit complement, for indices inside the word. -/
theorem testBit_not64_of_lt (c i : Nat) (h : i < 64) :
    (not64 c).testBit i = !c.testBit i := by
  unfold not64
  rw [show (0xFFFFFFFFFFFFFFFF : Nat) = 2 ^ 64 - 1 by norm_num,
    Nat.testBit_xor, Nat.testBit_two_pow_sub_one]
  simp [h]

/-- Two naturals below 4 agree once their two low bits agree. -/
theorem eq_of_lt_four_of_testBit (a b : Nat) (ha : a < 4) (hb : b < 4)
    (h0 : a.testBit 0 = b.testBit 0) (h1 : a.testBit 1 = b.testBit 1) : a = b := by
  interval_cases a <;> interval_cases b <;> revert h0 h1 <;> decide

/-- Two values below `2^64` in the same 4 KiB frame agree after masking
with the complemented page-offset mask. -/
theorem land_not64_pageoff_congr (x y : Nat) (hx : x < 2 ^ 64) (hy : y < 2 ^ 64)
    (h : x / 4096 = y / 4096) :
    x &&& not64 RISCV_PAGE_OFFSET = y &&& not64 RISCV_PAGE_OFFSET := by
  apply Nat.eq_of_testBit_eq
  intro i
  rw [Nat.testBit_and, Nat.testBit_and]
  rcases Nat.lt_or_ge i 12 with h12 | h12
  · have hm : (not64 RISCV_PAGE_OFFSET).testBit i = false := by
      rw [testBit_not64_of_lt _ _ (by omega),
        show RISCV_PAGE_OFFSET = 2 ^ 12 - 1 by norm_num [RISCV_PAGE_OFFSET],
        Nat.testBit_two_pow_sub_one]
      simp [h12]
    rw [hm]
    simp
  · rcases Nat.lt_or_ge i 64 with h64 | h64
    · have hxd : (x / 4096).testBit (i - 12) = x.testBit i := by
        rw [show (4096 : Nat) = 2 ^ 12 by norm_num, ← Nat.shiftRight_eq_div_pow,
          Nat.testBit_shiftRight, show 12 + (i - 12) = i by omega]
      have hyd : (y / 4096).testBit (i - 12) = y.testBit i := by
        rw [show (4096 : Nat) = 2 ^ 12 by norm_num, ← Nat.shiftRight_eq_div_pow,
          Nat.testBit_shiftRight, show 12 + (i - 12) = i by omega]
      rw [← hxd, ← hyd, h]
    · have hxb : x.testBit i = false :=
        Nat.testBit_lt_two_pow
          (lt_of_lt_of_le hx (Nat.pow_le_pow_right (by norm_num) h64))
      have hyb : y.testBit i = false :=
        Nat.testBit_lt_two_pow
          (lt_of_lt_of_le hy (Nat.pow_le_pow_right (by norm_num) h64))
      rw [hxb, hyb]

/-- The bits of the `sstatus` update performed by supervisor trap
delivery: SPIE (bit 5) receives the old SIE, SIE (bit 1) is cleared,
and SPP (bit 8) receives the low bit of the previous privilege
encoding. -/
theorem sstatus_trap_update_bits (status e : Nat) :
    (((status &&& not64 0x122) ||| (((status >>> 1) &&& 1) <<< 5) ||| (e <<< 8)).testBit 5
        = status.testBit 1) ∧
    (((status &&& not64 0x122) ||| (((status >>> 1) &&& 1) <<< 5) ||| (e <<< 8)).testBit 1
        = false) ∧
    (((status &&& not64 0x122) ||| (((status >>> 1) &&& 1) <<< 5) ||| (e <<< 8)).testBit 8
        = e.testBit 0) := by
  have hb5 : Nat.testBit 290 5 = true := by decide
  have hb1 : Nat.testBit 290 1 = true := by decide
  have hb8 : Nat.testBit 290 8 = true := by decide
  have hm3 : ∀ x : Nat, (x % 2).testBit 3 = false := by
    intro x
    apply Nat.testBit_lt_two_pow
    have : x % 2 < 2 := Nat.mod_lt x (by norm_num)
    omega
  refine ⟨?_, ?_, ?_⟩ <;>
    simp [Nat.testBit_or, Nat.testBit_and, Nat.testBit_shiftLeft, Nat.testBit_shiftRight,
      testBit_not64_of_lt, hb5, hb1, hb8, hm3]

/-- The bits of the `mstatus` update performed by machine trap
delivery: MPIE (bit 7) receives the old MIE, MIE (bit 3) is cleared,
and MPP (bits 11-12) receives the previous privilege encoding. -/
theorem mstatus_trap_update_bits (status e : Nat) (he : e < 4) :
    (((status &&& not64 0x1888) ||| (((status >>> 3) &&& 1) <<< 7) ||| (e <<< 11)).testBit 7
        = status.testBit 3) ∧
    (((status &&& not64 0x1888) ||| (((status >>> 3) &&& 1) <<< 7) ||| (e <<< 11)).testBit 3
        = false) ∧
    ((((status &&& not64 0x1888) ||| (((status >>> 3) &&& 1) <<< 7) ||| (e <<< 11)) >>> 11)
        &&& 3 = e) := by
  have hb7 : Nat.testBit 6280 7 = true := by decide
  have hb3 : Nat.testBit 6280 3 = true := by decide
  have hb11 : Nat.testBit 6280 11 = true := by decide
  have hb12 : Nat.testBit 6280 12 = true := by decide
  have h3_0 : Nat.testBit 3 0 = true := by decide
  have h3_1 : Nat.testBit 3 1 = true := by decide
  have hmk : ∀ x k : Nat, 1 ≤ k → (x % 2).testBit k = false := by
    intro x k hk
    apply Nat.testBit_lt_two_pow
    have h2 : x % 2 < 2 := Nat.mod_lt x (by norm_num)
    have h2k : (2 : Nat) ≤ 2 ^ k := by
      calc (2 : Nat) = 2 ^ 1 := by norm_num
        _ ≤ 2 ^ k := Nat.pow_le_pow_right (by norm_num) hk
    omega
  refine ⟨?_, ?_, ?_⟩
  · simp [Nat.testBit_or, Nat.testBit_and, Nat.testBit_shiftLeft, Nat.testBit_shiftRight,
      testBit_not64_of_lt, hb7, hmk]
  · simp [Nat.testBit_or, Nat.testBit_and, Nat.testBit_shiftLeft, Nat.testBit_shiftRight,
      testBit_not64_of_lt, hb3, hmk]
  · apply eq_of_lt_four_of_testBit _ _ (lt_of_le_of_lt Nat.and_le_right (by norm_num)) he
    · simp [Nat.testBit_or, Nat.testBit_and, Nat.testBit_shiftLeft, Nat.testBit_shiftRight,
        testBit_not64_of_lt, hb11, hmk, h3_0]
    · simp [Nat.testBit_or, Nat.testBit_and, Nat.testBit_shiftLeft, Nat.testBit_shiftRight,
        testBit_not64_of_lt, hb12, hmk, h3_1]

/-- C1: when a trap occurs at Supervisor or User privilege, the
delegation bit for its cause is set (`mideleg` for interrupts,
`medeleg` for exceptions) and the numeric cause is within XLEN range,
the trap is taken in supervisor mode: `pc` becomes `(stvec & ~1)` plus
`4*cause` exactly when `stvec` bit 0 is set and the trap is an
interrupt; `scause`, `sepc` and `stval` receive the cause, the trapped
PC and `tval`; in `sstatus` the old SIE moves to SPIE (bit 5), the
previous privilege is recorded in SPP (bit 8) and SIE (bit 1) is
cleared; and the privilege switches to Supervisor. -/
theorem C1_supervisor_delegated_trap (s : RiscvInt) (trp : Trap) (trapped_pc : Nat)
    (hpriv : s.prvmode = Priv.User ∨ s.prvmode = Priv.Supervisor)
    (hrange : trapNumericCause trp s.xlen < xlen2bits s.xlen)
    (hdeleg : ((if trapIsInterrupt trp s.xlen then s.csr CSR_MIDELEG_ADDRESS
                else s.csr CSR_MEDELEG_ADDRESS) >>> trapNumericCause trp s.xlen) &&& 1 ≠ 0) :
    (handle_trap s trp trapped_pc).pc
        = ((s.csr CSR_STVEC_ADDRESS &&& not64 1) +
           (if (s.csr CSR_STVEC_ADDRESS &&& 1 != 0) && trapIsInterrupt trp s.xlen
            then 4 * trapNumericCause trp s.xlen else 0)) % 2 ^ 64 ∧
    (handle_trap s trp trapped_pc).csr CSR_SCAUSE_ADDRESS = trapNumericCause trp s.xlen ∧
    (handle_trap s trp trapped_pc).csr CSR_SEPC_ADDRESS = trapped_pc ∧
    (handle_trap s trp trapped_pc).csr CSR_STVAL_ADDRESS = trp.val ∧
    ((handle_trap s trp trapped_pc).csr CSR_SSTATUS_ADDRESS).testBit 5
        = (s.csr CSR_SSTATUS_ADDRESS).testBit 1 ∧
    ((handle_trap s trp trapped_pc).csr CSR_SSTATUS_ADDRESS).testBit 1 = false ∧
    ((handle_trap s trp trapped_pc).csr CSR_SSTATUS_ADDRESS).testBit 8
        = decide (s.prvmode = Priv.Supervisor) ∧
    (handle_trap s trp trapped_pc).prvmode = Priv.Supervisor := by
  have henc : get_privilege_encoding s.prvmode ≤ privSupervisorAsU64 := by
    rcases hpriv with h | h <;> simp [h, get_privilege_encoding, privSupervisorAsU64]
  have hdel : supervisorDelegated s trp = true := by
    unfold supervisorDelegated
    rw [Bool.and_eq_true, Bool.and_eq_true]
    refine ⟨⟨by simpa using henc, by simpa using hrange⟩, ?_⟩
    unfold trapDelegCsr
    cases hI : trapIsInterrupt trp s.xlen <;>
      · rw [hI] at hdeleg
        simp [henc]
        simpa using hdeleg
  have hcsr : (handle_trap s trp trapped_pc).csr CSR_SSTATUS_ADDRESS
      = ((s.csr CSR_SSTATUS_ADDRESS &&& not64 0x122) |||
         (((s.csr CSR_SSTATUS_ADDRESS >>> 1) &&& 1) <<< 5) |||
         ((get_privilege_encoding s.prvmode &&& 1) <<< 8)) := by
    simp [handle_trap, hdel, change_priv, CSR_SSTATUS_ADDRESS, CSR_SCAUSE_ADDRESS,
      CSR_SEPC_ADDRESS, CSR_STVAL_ADDRESS]
  have hbits := sstatus_trap_update_bits (s.csr CSR_SSTATUS_ADDRESS)
    (get_privilege_encoding s.prvmode &&& 1)
  have hspp : (get_privilege_encoding s.prvmode &&& 1).testBit 0
      = decide (s.prvmode = Priv.Supervisor) := by
    rcases hpriv with h | h <;> simp [h, get_privilege_encoding]
  refine ⟨?_, ?_, ?_, ?_, ?_, ?_, ?_, ?_⟩
  · simp [handle_trap, hdel, change_priv]
  · simp [handle_trap, hdel, change_priv, CSR_SCAUSE_ADDRESS]
  · simp [handle_trap, hdel, change_priv, CSR_SCAUSE_ADDRESS, CSR_SEPC_ADDRESS]
  · simp [handle_trap, hdel, change_priv, CSR_SCAUSE_ADDRESS, CSR_SEPC_ADDRESS,
      CSR_STVAL_ADDRESS]
  · rw [hcsr]
    exact hbits.1
  · rw [hcsr]
    exact hbits.2.1
  · rw [hcsr, hbits.2.2, hspp]
  · simp [handle_trap, hdel, change_priv]

/-- Concrete hart for the C1 witness: user privilege, XLEN 64,
`medeleg` bit 2 set and `stvec = 0x2001` (vectored bit set). -/
def hartC1 : RiscvInt :=
  { init_systemmode .X64 with
    prvmode := .User
    csr := fun i =>
      if i = CSR_MEDELEG_ADDRESS then 4
      else if i = CSR_STVEC_ADDRESS then 0x2001 else 0 }

/-- Concrete trap for the C1 witness: an illegal-instruction exception
with `tval = 0x77`. -/
def trapC1 : Trap := { ttype := IllegalInstruction, val := 0x77 }

/-- Witness for C1 at a concrete delegated exception: the hypotheses
hold and the delivered trap lands at `stvec & ~1 = 0x2000` in
supervisor mode with `scause = 2` and `sepc = 128`. -/
theorem C1_supervisor_delegated_trap_witness :
    (hartC1.prvmode = Priv.User ∨ hartC1.prvmode = Priv.Supervisor) ∧
    trapNumericCause trapC1 hartC1.xlen < xlen2bits hartC1.xlen ∧
    (((if trapIsInterrupt trapC1 hartC1.xlen then hartC1.csr CSR_MIDELEG_ADDRESS
       else hartC1.csr CSR_MEDELEG_ADDRESS) >>> trapNumericCause trapC1 hartC1.xlen)
       &&& 1 ≠ 0) ∧
    (handle_trap hartC1 trapC1 128).csr CSR_SCAUSE_ADDRESS
      = trapNumericCause trapC1 hartC1.xlen ∧
    (handle_trap hartC1 trapC1 128).csr CSR_SEPC_ADDRESS = 128 ∧
    (handle_trap hartC1 trapC1 128).prvmode = Priv.Supervisor :=
  ⟨Or.inl rfl, by decide, by decide,
    (C1_supervisor_delegated_trap hartC1 trapC1 128 (Or.inl rfl) (by decide)
      (by decide)).2.1,
    (C1_supervisor_delegated_trap hartC1 trapC1 128 (Or.inl rfl) (by decide)
      (by decide)).2.2.1,
    (C1_supervisor_delegated_trap hartC1 trapC1 128 (Or.inl rfl) (by decide)
      (by decide)).2.2.2.2.2.2.2⟩

/-- C2: a trap that is not delegated to supervisor mode is delivered in
machine mode: `pc` becomes `(mtvec & ~1)` plus `4*cause` exactly when
`mtvec` bit 0 is set and the trap is an interrupt; `mcause`, `mepc` and
`mtval` receive the cause, the trapped PC and `tval`; in `mstatus` the
old MIE moves to MPIE (bit 7), MIE (bit 3) is cleared and the previous
privilege encoding lands in MPP (bits 11-12, hence 0 from User and 1
from Supervisor); and the privilege switches to Machine. -/
theorem C2_machine_trap_delivery (s : RiscvInt) (trp : Trap) (trapped_pc : Nat)
    (hnd : supervisorDelegated s trp = false) :
    (handle_trap s trp trapped_pc).pc
        = ((s.csr CSR_MTVEC_ADDRESS &&& not64 1) +
           (if (s.csr CSR_MTVEC_ADDRESS &&& 1 != 0) && trapIsInterrupt trp s.xlen
            then 4 * trapNumericCause trp s.xlen else 0)) % 2 ^ 64 ∧
    (handle_trap s trp trapped_pc).csr CSR_MCAUSE_ADDRESS = trapNumericCause trp s.xlen ∧
    (handle_trap s trp trapped_pc).csr CSR_MEPC_ADDRESS = trapped_pc ∧
    (handle_trap s trp trapped_pc).csr CSR_MTVAL_ADDRESS = trp.val ∧
    ((handle_trap s trp trapped_pc).csr CSR_MSTATUS_ADDRESS).testBit 7
        = (s.csr CSR_MSTATUS_ADDRESS).testBit 3 ∧
    ((handle_trap s trp trapped_pc).csr CSR_MSTATUS_ADDRESS).testBit 3 = false ∧
    (((handle_trap s trp trapped_pc).csr CSR_MSTATUS_ADDRESS >>> 11) &&& 3)
        = get_privilege_encoding s.prvmode ∧
    (handle_trap s trp trapped_pc).prvmode = Priv.Machine := by
  have hcsr : (handle_trap s trp trapped_pc).csr CSR_MSTATUS_ADDRESS
      = ((s.csr CSR_MSTATUS_ADDRESS &&& not64 0x1888) |||
         (((s.csr CSR_MSTATUS_ADDRESS >>> 3) &&& 1) <<< 7) |||
         (get_privilege_encoding s.prvmode <<< 11)) := by
    simp [handle_trap, hnd, change_priv, CSR_MSTATUS_ADDRESS, CSR_MCAUSE_ADDRESS,
      CSR_MEPC_ADDRESS, CSR_MTVAL_ADDRESS]
  have he : get_privilege_encoding s.prvmode < 4 := by
    cases s.prvmode <;> simp [get_privilege_encoding]
  have hbits := mstatus_trap_update_bits (s.csr CSR_MSTATUS_ADDRESS)
    (get_privilege_encoding s.prvmode) he
  refine ⟨?_, ?_, ?_, ?_, ?_, ?_, ?_, ?_⟩
  · simp [handle_trap, hnd, change_priv]
  · simp [handle_trap, hnd, change_priv, CSR_MCAUSE_ADDRESS]
  · simp [handle_trap, hnd, change_priv, CSR_MCAUSE_ADDRESS, CSR_MEPC_ADDRESS]
  · simp [handle_trap, hnd, change_priv, CSR_MCAUSE_ADDRESS, CSR_MEPC_ADDRESS,
      CSR_MTVAL_ADDRESS]
  · rw [hcsr]
    exact hbits.1
  · rw [hcsr]
    exact hbits.2.1
  · rw [hcsr]
    exact hbits.2.2
  · simp [handle_trap, hnd, change_priv]

/-- Concrete hart for the C2 witness: supervisor privilege, XLEN 64, no
delegation bits set, `mtvec = 0x3000`, `mstatus` with MIE set. -/
def hartC2 : RiscvInt :=
  { init_systemmode .X64 with
    prvmode := .Supervisor
    csr := fun i =>
      if i = CSR_MTVEC_ADDRESS then 0x3000
      else if i = CSR_MSTATUS_ADDRESS then 8 else 0 }

/-- Witness for C2 at a concrete undelegated exception: the trap from
supervisor privilege lands at `mtvec = 0x3000` in machine mode with
`MPP = 1` and MPIE set from the old MIE. -/
theorem C2_machine_trap_delivery_witness :
    supervisorDelegated hartC2 trapC1 = false ∧
    (handle_trap hartC2 trapC1 52).pc = 0x3000 ∧
    (handle_trap hartC2 trapC1 52).csr CSR_MEPC_ADDRESS = 52 ∧
    ((handle_trap hartC2 trapC1 52).csr CSR_MSTATUS_ADDRESS).testBit 7
        = (hartC2.csr CSR_MSTATUS_ADDRESS).testBit 3 ∧
    (((handle_trap hartC2 trapC1 52).csr CSR_MSTATUS_ADDRESS >>> 11) &&& 3) = 1 ∧
    (handle_trap hartC2 trapC1 52).prvmode = Priv.Machine :=
  ⟨by decide,
    by
      have h := (C2_machine_trap_delivery hartC2 trapC1 52 (by decide)).1
      rw [h]
      decide,
    (C2_machine_trap_delivery hartC2 trapC1 52 (by decide)).2.2.1,
    (C2_machine_trap_delivery hartC2 trapC1 52 (by decide)).2.2.2.2.1,
    by
      have h := (C2_machine_trap_delivery hartC2 trapC1 52 (by decide)).2.2.2.2.2.2.1
      rw [h]
      decide,
    (C2_machine_trap_delivery hartC2 trapC1 52 (by decide)).2.2.2.2.2.2.2⟩

/-- The `SyscallIn` record the bridge hands to `dispatch`: the
translated number from `a7` and the arguments from `a0..a5`. -/
def syscall_input (s : RiscvInt) : SyscallIn :=
  { syscall := riscv_syscall_table (s.regs 17 % 2 ^ 16)
    args := [s.regs 10, s.regs 11, s.regs 12, s.regs 13, s.regs 14, s.regs 15, 0] }

/-- Concrete hart whose `mstatus` has the forbidden bit 6 set, at
machine privilege so a trap is delivered in machine mode. -/
def hartC8 : RiscvInt :=
  { init_systemmode .X64 with
    csr := fun i => if i = CSR_MSTATUS_ADDRESS then 0x40 else 0 }

/-- Counterexample to C8: the machine-mode trap delivery writes
`mstatus` without the fixup, so a pre-existing bit 6 survives the
write. -/
theorem C8_counterexample_trap_write_keeps_bit6 :
    ((handle_trap hartC8 trapC1 0).csr CSR_MSTATUS_ADDRESS).testBit 6 = true := by
  decide

/-- C8 (amended): the `mstatus_fixup` routine clears bit 6 and, when
XLEN is 64, clears bits 36 and 37 and forces the `sxl` and `uxl`
fields (bits 32-35) to the machine's `mxl` encoding; the trap-delivery
write of `mstatus` does not apply this fixup. -/
theorem C8_mstatus_fixup_invariant (s : RiscvInt) (m : Nat) :
    (mstatus_fixup s m).testBit 6 = false ∧
    (s.xlen = Xlen.X64 →
      (mstatus_fixup s m).testBit 36 = false ∧
      (mstatus_fixup s m).testBit 37 = false ∧
      ((mstatus_fixup s m >>> 32) &&& 3) = xlen2misa s.xlen ∧
      ((mstatus_fixup s m >>> 34) &&& 3) = xlen2misa s.xlen) := by
  cases hx : s.xlen
  case X32 =>
    refine ⟨?_, by simp [hx]⟩
    simp +decide [mstatus_fixup, hx, Nat.testBit_and, Nat.testBit_shiftLeft,
      testBit_not64_of_lt]
  case X64 =>
    have hand23 : (2 &&& 3 : Nat) = 2 := by rfl
    have l33a : Nat.testBit 8589934592 33 = true := by decide
    have l33b : Nat.testBit 51539607552 33 = false := by decide
    have l33c : Nat.testBit 34359738368 33 = false := by decide
    have l35a : Nat.testBit 8589934592 35 = false := by decide
    have l35b : Nat.testBit 51539607552 35 = true := by decide
    have l35c : Nat.testBit 34359738368 35 = true := by decide
    have t31 : Nat.testBit 3 1 = true := by decide
    have t21 : Nat.testBit 2 1 = true := by decide
    have hfix : mstatus_fixup s m
        = ((((((m &&& not64 (1 <<< 6)) &&& not64 (1 <<< 36)) &&& not64 (1 <<< 37))
            &&& not64 (3 <<< 32)) ||| (2 <<< 32)) &&& not64 (3 <<< 34)) ||| (2 <<< 34) := by
      simp +decide [mstatus_fixup, hx, xlen2misa, hand23]
    refine ⟨?_, fun _ => ⟨?_, ?_, ?_, ?_⟩⟩
    · rw [hfix]
      simp +decide [Nat.testBit_or, Nat.testBit_and, Nat.testBit_shiftLeft,
        testBit_not64_of_lt]
    · rw [hfix]
      simp +decide [Nat.testBit_or, Nat.testBit_and, Nat.testBit_shiftLeft,
        testBit_not64_of_lt]
    · rw [hfix]
      simp +decide [Nat.testBit_or, Nat.testBit_and, Nat.testBit_shiftLeft,
        testBit_not64_of_lt]
    · rw [hfix, show xlen2misa Xlen.X64 = 2 from rfl]
      apply eq_of_lt_four_of_testBit _ _ (lt_of_le_of_lt Nat.and_le_right (by norm_num))
        (by norm_num)
      · simp +decide [Nat.testBit_or, Nat.testBit_and, Nat.testBit_shiftLeft,
          Nat.testBit_shiftRight, testBit_not64_of_lt]
      · simp +decide [Nat.testBit_or, Nat.testBit_and, Nat.testBit_shiftLeft,
          Nat.testBit_shiftRight, testBit_not64_of_lt, l33a, l33b, l33c, t31, t21]
    · rw [hfix, show xlen2misa Xlen.X64 = 2 from rfl]
      apply eq_of_lt_four_of_testBit _ _ (lt_of_le_of_lt Nat.and_le_right (by norm_num))
        (by norm_num)
      · simp +decide [Nat.testBit_or, Nat.testBit_and, Nat.testBit_shiftLeft,
          Nat.testBit_shiftRight, testBit_not64_of_lt]
      · simp +decide [Nat.testBit_or, Nat.testBit_and, Nat.testBit_shiftLeft,
          Nat.testBit_shiftRight, testBit_not64_of_lt, l35a, l35b, l35c, t31, t21]

/-- Witness for the amended C8 at a concrete all-ones `mstatus` image
on an XLEN-64 hart. -/
theorem C8_mstatus_fixup_invariant_witness :
    (mstatus_fixup (init_systemmode .X64) 0xFFFFFFFFFFFFFFFF).testBit 6 = false ∧
    (init_systemmode .X64).xlen = Xlen.X64 ∧
    ((mstatus_fixup (init_systemmode .X64) 0xFFFFFFFFFFFFFFFF >>> 32) &&& 3)
      = xlen2misa (init_systemmode .X64).xlen :=
  ⟨(C8_mstatus_fixup_invariant (init_systemmode .X64) 0xFFFFFFFFFFFFFFFF).1, rfl,
    ((C8_mstatus_fixup_invariant (init_systemmode .X64) 0xFFFFFFFFFFFFFFFF).2 rfl).2.2.1⟩

/-- Concrete hart with a live LR/SC reservation. -/
def hartRes : RiscvInt := { init_systemmode .X64 with is_reservation := true }

/-- Counterexample to C9: a live reservation survives both the raising
(`set_trap`) and the delivery (`handle_trap`) of a trap. -/
theorem C9_counterexample_reservation_survives :
    (set_trap hartRes trapC1).is_reservation = true ∧
    (handle_trap hartRes trapC1 0).is_reservation = true := by
  constructor
  · rfl
  · decide

/-- C9 (amended): neither `set_trap` nor `handle_trap` touches the
reservation-valid flag; the reservation is left exactly as it was
before the trap. -/
theorem C9_trap_preserves_reservation (s : RiscvInt) (trp : Trap) (tpc : Nat) :
    (set_trap s trp).is_reservation = s.is_reservation ∧
    (handle_trap s trp tpc).is_reservation = s.is_reservation := by
  constructor
  · rfl
  · cases h : supervisorDelegated s trp <;> simp [handle_trap, h, change_priv]

/-- Signal oracle for the witnesses: no signal pending. -/
def sigW : SigOracle := { pending := false, deliver := fun s => s }

/-- Dispatch oracle for the C10/C4 witnesses: leaves the hart
untouched and returns no secondary value. -/
def dispW : DispatchOracle := fun s _ => (s, { ret1 := 0, ret2 := none })

/-- C10: when the top-level loop delivers a trap in system mode, the
iteration restarts immediately with any pending `want_pc` discarded
(never committed to `pc`), and with `wfi`, `trap_pc`, the trap slot
and `stop_exec` all cleared, so the PC is exactly the vector written
by the trap engine. -/
theorem C10_system_trap_discards_want_pc (sig : SigOracle) (disp : DispatchOracle)
    (s : RiscvInt) (t : Trap) (hu : s.usermode = false) (ht : s.trap = some t) :
    ∃ s', run_after_exec sig disp s = some s' ∧
      s'.pc = (handle_trap s t s.trap_pc).pc ∧
      s'.want_pc = none ∧ s'.wfi = false ∧ s'.trap_pc = 0 ∧
      s'.stop_exec = false ∧ s'.trap = none := by
  refine ⟨{ (handle_trap s t s.trap_pc) with
            trap_pc := 0
            trap := none
            want_pc := none
            wfi := false
            stop_exec := false }, ?_, rfl, rfl, rfl, rfl, rfl, rfl⟩
  simp [run_after_exec, ht, hu]

/-- Concrete hart for the C10 witness: system mode, pending trap, a
deferred `want_pc` of 999 that must be discarded, `mtvec = 0x5000`. -/
def hartC10 : RiscvInt :=
  { init_systemmode .X64 with
    trap := some trapC1
    trap_pc := 64
    want_pc := some 999
    csr := fun i => if i = CSR_MTVEC_ADDRESS then 0x5000 else 0 }

/-- Witness for C10: with `want_pc = some 999` pending, the delivered
trap leaves `pc` at the vector `0x5000`, not 999. -/
theorem C10_system_trap_discards_want_pc_witness :
    hartC10.usermode = false ∧ hartC10.trap = some trapC1 ∧
    hartC10.want_pc = some 999 ∧
    (handle_trap hartC10 trapC1 hartC10.trap_pc).pc = 0x5000 ∧
    (∃ s', run_after_exec sigW dispW hartC10 = some s' ∧
      s'.pc = (handle_trap hartC10 trapC1 hartC10.trap_pc).pc ∧
      s'.want_pc = none ∧ s'.wfi = false ∧ s'.trap_pc = 0 ∧
      s'.stop_exec = false ∧ s'.trap = none) :=
  ⟨rfl, rfl, rfl, by decide,
    C10_system_trap_discards_want_pc sigW dispW hartC10 trapC1 rfl rfl⟩

/-- C4: in user mode, a pending trap whose cause is the environment
call (`EnvironmentCallFromMMode`) makes the loop invoke the syscall
bridge, clear the trap slot and `stop_exec`, and continue through the
normal iteration tail; any other pending user-mode trap halts the
emulator (the guest never observes it). -/
theorem C4_usermode_trap_handling (sig : SigOracle) (disp : DispatchOracle)
    (s : RiscvInt) (t : Trap) (hu : s.usermode = true) (ht : s.trap = some t) :
    (t.ttype = EnvironmentCallFromMMode →
      ∃ s1, handle_syscall disp s = some s1 ∧
        run_after_exec sig disp s
          = run_tail sig { s1 with stop_exec := false, trap := none }) ∧
    (t.ttype ≠ EnvironmentCallFromMMode → run_after_exec sig disp s = none) := by
  constructor
  · intro he
    have hs : ∃ s1, handle_syscall disp s = some s1 := by
      unfold handle_syscall riscv_translate_syscall
      exact ⟨_, rfl⟩
    obtain ⟨s1, hs1⟩ := hs
    refine ⟨s1, hs1, ?_⟩
    simp [run_after_exec, ht, hu, he, hs1]
  · intro hne
    simp [run_after_exec, ht, hu, hne]

/-- Concrete user-mode hart with a pending environment-call trap. -/
def hartC4 : RiscvInt :=
  { init_usermode .X64 with
    trap := some { ttype := EnvironmentCallFromMMode, val := 0 } }

/-- Witness for C4 at a concrete user-mode environment call. -/
theorem C4_usermode_trap_handling_witness :
    hartC4.usermode = true ∧
    hartC4.trap = some { ttype := EnvironmentCallFromMMode, val := 0 } ∧
    (({ ttype := EnvironmentCallFromMMode, val := 0 } : Trap).ttype
        = EnvironmentCallFromMMode →
      ∃ s1, handle_syscall dispW hartC4 = some s1 ∧
        run_after_exec sigW dispW hartC4
          = run_tail sigW { s1 with stop_exec := false, trap := none }) ∧
    (({ ttype := EnvironmentCallFromMMode, val := 0 } : Trap).ttype
        ≠ EnvironmentCallFromMMode → run_after_exec sigW dispW hartC4 = none) :=
  ⟨rfl, rfl,
    (C4_usermode_trap_handling sigW dispW hartC4
      { ttype := EnvironmentCallFromMMode, val := 0 } rfl rfl).1,
    (C4_usermode_trap_handling sigW dispW hartC4
      { ttype := EnvironmentCallFromMMode, val := 0 } rfl rfl).2⟩

/-- C5: the syscall bridge reads the number from `a7` (index 17) and
the arguments from `a0..a5` (indices 10..15), translates through the
fixed table (unknown numbers become the unsupported variant),
dispatches, writes the primary result into `a0`, and writes `a1` only
when the dispatch returns a secondary value, leaving every other
register exactly as the dispatch left it. -/
theorem C5_syscall_bridge (disp : DispatchOracle) (s : RiscvInt)
    (s1 : RiscvInt) (out : SyscallOut)
    (hd : disp s (syscall_input s) = (s1, out)) :
    (∀ n : Nat, n ≠ 93 → n ≠ 64 → riscv_translate_syscall n
        = some (.unsupported n)) ∧
    ∃ s', handle_syscall disp s = some s' ∧
      s'.regs 10 = out.ret1 ∧
      (out.ret2 = none → s'.regs 11 = s1.regs 11) ∧
      (∀ x, out.ret2 = some x → s'.regs 11 = x) ∧
      (∀ i, i ≠ 10 → i ≠ 11 → s'.regs i = s1.regs i) := by
  constructor
  · intro n h93 h64
    simp [riscv_translate_syscall, riscv_syscall_table, h93, h64]
  · simp only [handle_syscall, riscv_translate_syscall]
    rw [show ({ syscall := riscv_syscall_table (s.regs 17 % 2 ^ 16)
                args := [s.regs 10, s.regs 11, s.regs 12, s.regs 13, s.regs 14,
                  s.regs 15, 0] } : SyscallIn) = syscall_input s from rfl, hd]
    cases hr : out.ret2 with
    | none =>
      refine ⟨_, rfl, by simp, fun _ => by simp, fun x hx => by simp at hx,
        fun i h10 h11 => by simp [h10]⟩
    | some xx =>
      refine ⟨_, rfl, by simp, fun h => by simp at h, fun x hx => by cases hx; simp,
        fun i h10 h11 => by simp [h10, h11]⟩

/-- Concrete dispatch result for the C5 witness: primary value 42 and
secondary value 9. -/
def outC5 : SyscallOut := { ret1 := 42, ret2 := some 9 }

/-- Concrete dispatch oracle for the C5 witness. -/
def dispC5 : DispatchOracle := fun s _ => (s, outC5)

/-- Concrete user-mode hart for the C5 witness, with distinct register
contents (`regs i = i`) and `a7 = 17`. -/
def hartC5 : RiscvInt := { init_usermode .X64 with regs := fun i => i }

/-- Witness for C5 at a concrete dispatch returning both a primary and
a secondary value. -/
theorem C5_syscall_bridge_witness :
    dispC5 hartC5 (syscall_input hartC5) = (hartC5, outC5) ∧
    ((∀ n : Nat, n ≠ 93 → n ≠ 64 → riscv_translate_syscall n
        = some (.unsupported n)) ∧
     ∃ s', handle_syscall dispC5 hartC5 = some s' ∧
       s'.regs 10 = outC5.ret1 ∧
       (outC5.ret2 = none → s'.regs 11 = hartC5.regs 11) ∧
       (∀ x, outC5.ret2 = some x → s'.regs 11 = x) ∧
       (∀ i, i ≠ 10 → i ≠ 11 → s'.regs i = hartC5.regs i)) :=
  ⟨rfl, C5_syscall_bridge dispC5 hartC5 hartC5 outC5 rfl⟩

/-- C7: the source converts a decoder rejection not into an
`IllegalInstruction` trap but into a `panic!` — `illegal_instr` begins
with `panic!(); // for now`, so executing the undecodable word
`0x00000000` aborts the emulator through the uncached loop instead of
raising a trap with `tval` equal to the PC. -/
theorem C7_illegal_word_panics (orc : ExecOracle) (s : RiscvInt) (n : Nat)
    (hread : orc.read32v s s.pc = .ok 0)
    (hdec : orc.dec16 { s with is_compressed := true } 0 = none) :
    exec_one_by_one orc (n + 1) s = .panic ∧ illegal_instr s = none := by
  constructor
  · show (match uncachedStep orc s with
      | .fault t => ExecResult.fault s t
      | .panic => ExecResult.panic
      | .cont s' => if s'.stop_exec then ExecResult.ok s'
                    else exec_one_by_one orc n s') = ExecResult.panic
    unfold uncachedStep
    rw [hread]
    show (match (match orc.dec16 { s with is_compressed := true } (0 &&& 0xffff) with
        | none => StepOut.panic
        | some s2 =>
          StepOut.cont { { s2 with pc := (s2.pc + 2) % 2 ^ 64 } with
                         regs := fun i => if i = 0 then 0 else s2.regs i }) with
      | StepOut.fault t => ExecResult.fault s t
      | StepOut.panic => ExecResult.panic
      | StepOut.cont s' => if s'.stop_exec then ExecResult.ok s'
                           else exec_one_by_one orc n s') = ExecResult.panic
    rw [show (0 &&& 0xffff : Nat) = 0 from rfl, hdec]
  · rfl

/-- Oracle for the C7 witness: memory that fetches the word 0 at every
address, and decoders that reject every encoding. -/
def orcC7 : ExecOracle :=
  { read32v := fun _ _ => .ok 0
    read16p := fun _ => .ok 0
    dec16 := fun _ _ => none
    dec32 := fun _ _ => none
    decb16 := fun _ => none
    decb32 := fun _ => none
    virt2phys := fun _ a => some a
    mem_trap := fun _ a => { ttype := IllegalInstruction, val := a }
    runInstr := fun s _ => s }

/-- Witness for C7: on a machine-mode boot hart whose fetch returns
`0x00000000`, one uncached step panics. -/
theorem C7_illegal_word_panics_witness :
    orcC7.read32v (init_systemmode .X64) (init_systemmode .X64).pc = .ok 0 ∧
    orcC7.dec16 { (init_systemmode .X64) with is_compressed := true } 0 = none ∧
    exec_one_by_one orcC7 1 (init_systemmode .X64) = .panic ∧
    illegal_instr (init_systemmode .X64) = none :=
  ⟨rfl, rfl,
    (C7_illegal_word_panics orcC7 (init_systemmode .X64) 0 rfl rfl).1,
    (C7_illegal_word_panics orcC7 (init_systemmode .X64) 0 rfl rfl).2⟩

/-- The decode oracles never clear a pending `stop_exec`: instruction
handlers only ever set the flag (the sole clearing site is the entry of
`exec_block_inner` / the run loop), so a decode-and-execute step
entered with `stop_exec` set leaves it set. -/
def decKeepsStop (orc : ExecOracle) : Prop :=
  (∀ s w s', orc.dec16 s w = some s' → s.stop_exec = true → s'.stop_exec = true) ∧
  (∀ s w s', orc.dec32 s w = some s' → s.stop_exec = true → s'.stop_exec = true)

/-- A successful uncached step from a state with `stop_exec` set ends
with `stop_exec` still set. -/
theorem uncachedStep_cont_stop (orc : ExecOracle) (hk : decKeepsStop orc)
    (s s' : RiscvInt) (hs : s.stop_exec = true)
    (hu : uncachedStep orc s = .cont s') : s'.stop_exec = true := by
  unfold uncachedStep at hu
  split at hu
  · exact StepOut.noConfusion hu
  · split at hu
    · simp only [] at hu
      split at hu
      · exact StepOut.noConfusion hu
      · next s2 heq =>
        injection hu with h
        subst h
        show s2.stop_exec = true
        exact hk.1 _ _ _ heq hs
    · simp only [] at hu
      split at hu
      · exact StepOut.noConfusion hu
      · next s2 heq =>
        injection hu with h
        subst h
        show s2.stop_exec = true
        exact hk.2 _ _ _ heq hs

/-- The uncached loop entered with `stop_exec` already set executes
exactly one instruction: its result is that of a single step. -/
theorem exec_one_by_one_single (orc : ExecOracle) (hk : decKeepsStop orc)
    (n : Nat) (s : RiscvInt) (hs : s.stop_exec = true) :
    exec_one_by_one orc (n + 1) s
      = (match uncachedStep orc s with
         | .fault t => ExecResult.fault s t
         | .panic => ExecResult.panic
         | .cont s' => ExecResult.ok s') := by
  show (match uncachedStep orc s with
        | .fault t => ExecResult.fault s t
        | .panic => ExecResult.panic
        | .cont s' => if s'.stop_exec then ExecResult.ok s'
                      else exec_one_by_one orc n s') = _
  cases hu : uncachedStep orc s with
  | fault t => rfl
  | panic => rfl
  | cont s' =>
    have hst := uncachedStep_cont_stop orc hk s s' hs hu
    simp [hst]

/-- C6: when fewer than 4 bytes remain on the current page at `pc`, the
cached executor disables the cache, sets `stop_exec`, and executes
exactly one instruction through the uncached loop (its result is that
of a single uncached step from the modified state); and the run loop's
cached branch re-enables the cache before the trap drain, so the next
cached iteration sees `cache_enabled` again. -/
theorem C6_page_cross_single_uncached_step (orc : ExecOracle) (n : Nat) (s : RiscvInt)
    (hk : decKeepsStop orc) (_hc : s.cache_enabled = true)
    (hrem : RISCV_PAGE_SIZE - (s.pc &&& RISCV_PAGE_OFFSET) < 4) :
    exec_cached_int orc (n + 1) s
      = (match uncachedStep orc { s with stop_exec := true, cache_enabled := false } with
         | .fault t => ExecResult.fault
             { s with stop_exec := true, cache_enabled := false } t
         | .panic => ExecResult.panic
         | .cont s' => ExecResult.ok s') ∧
    (∀ (fuel : Nat) (s0 s1 : RiscvInt), cached_phase orc fuel s0 = .cont s1 →
       s1.cache_enabled = true) := by
  constructor
  · have hstep : exec_cached_int orc (n + 1) s
        = exec_one_by_one orc (n + 1) { s with stop_exec := true, cache_enabled := false } := by
      simp [exec_cached_int, get_pc_of_current_instr, hrem]
    rw [hstep, exec_one_by_one_single orc hk n _ rfl]
  · intro fuel s0 s1 hph
    unfold cached_phase at hph
    split at hph
    · injection hph with h
      subst h
      rfl
    · injection hph with h
      subst h
      rfl
    · exact PhaseOut.noConfusion hph
    · exact PhaseOut.noConfusion hph

/-- Oracle for the C6 witness: every fetch returns the uncompressed
word `0x13` and the decoders leave the hart unchanged. -/
def orcC6 : ExecOracle :=
  { read32v := fun _ _ => .ok 0x13
    read16p := fun _ => .ok 0x13
    dec16 := fun s _ => some s
    dec32 := fun s _ => some s
    decb16 := fun _ => some (0, false)
    decb32 := fun _ => some (0, false)
    virt2phys := fun _ a => some a
    mem_trap := fun _ a => { ttype := IllegalInstruction, val := a }
    runInstr := fun s _ => s }

/-- The C6 witness oracle preserves a set `stop_exec` across decode. -/
theorem orcC6_keeps : decKeepsStop orcC6 :=
  ⟨fun _ _ _ h hs => by
      obtain rfl := Option.some.inj h
      exact hs,
    fun _ _ _ h hs => by
      obtain rfl := Option.some.inj h
      exact hs⟩

/-- Concrete hart for the C6 witness: cached execution with `pc` two
bytes short of a page boundary. -/
def hartC6 : RiscvInt :=
  { init_systemmode .X64 with pc := 4094, cache_enabled := true }

/-- Witness for C6 at the concrete page-crossing state. -/
theorem C6_page_cross_single_uncached_step_witness :
    decKeepsStop orcC6 ∧ hartC6.cache_enabled = true ∧
    RISCV_PAGE_SIZE - (hartC6.pc &&& RISCV_PAGE_OFFSET) < 4 ∧
    (exec_cached_int orcC6 1 hartC6
      = (match uncachedStep orcC6
             { hartC6 with stop_exec := true, cache_enabled := false } with
         | .fault t => ExecResult.fault
             { hartC6 with stop_exec := true, cache_enabled := false } t
         | .panic => ExecResult.panic
         | .cont s' => ExecResult.ok s') ∧
     (∀ (fuel : Nat) (s0 s1 : RiscvInt), cached_phase orcC6 fuel s0 = .cont s1 →
        s1.cache_enabled = true)) :=
  ⟨orcC6_keeps, rfl, by decide,
    C6_page_cross_single_uncached_step orcC6 0 hartC6 orcC6_keeps rfl (by decide)⟩

/-- Loop invariant of the block builder: starting from `iaddr` with
`maxCount` bytes remaining up to the page-derived bound `E`, with the
previous instruction length `inc` (0 before any instruction, otherwise
at least 2) and `a + inc ≤ iaddr`, a normal completion closes the
current block with the original begin address, an `end` address in
`[a, E)`, and appends exactly that block to its page's list. -/
theorem build_loop_ok_bounds (orc : ExecOracle) :
    ∀ (fuel : Nat) (s : RiscvInt) (iaddr maxCount inc E a : Nat),
      iaddr + maxCount = E →
      a + inc ≤ iaddr →
      (inc = 0 → iaddr < E) →
      (inc ≠ 0 → 2 ≤ inc) →
      ∀ s', build_loop orc fuel s iaddr maxCount inc = .ok s' →
        s'.current_block.begin = s.current_block.begin ∧
        a ≤ s'.current_block.end_ ∧ s'.current_block.end_ < E ∧
        s'.instr = (fun k =>
          if k = s.current_block.begin >>> RISCV_PAGE_SHIFT
          then s.instr k ++ [s'.current_block] else s.instr k) := by
  intro fuel
  induction fuel with
  | zero =>
    intro s iaddr maxCount inc E a h1 h2 h3 h4 s' hres
    simp only [build_loop] at hres
    injection hres with h
    subst h
    refine ⟨rfl, ?_, ?_, rfl⟩
    · show a ≤ iaddr - inc
      omega
    · show iaddr - inc < E
      rcases Nat.eq_zero_or_pos inc with hz | hp
      · have := h3 hz
        omega
      · have := h4 (by omega)
        omega
  | succ fuel ih =>
    intro s iaddr maxCount inc E a h1 h2 h3 h4 s' hres
    simp only [build_loop] at hres
    split at hres
    · -- 2 ≤ maxCount
      next hmc =>
      split at hres
      · exact BuildOut.noConfusion hres
      · next instr_lower hrd =>
        split at hres
        · -- compressed
          split at hres
          · exact BuildOut.noConfusion hres
          · next pr hdec =>
            split at hres
            · -- stop_translating after this instruction
              injection hres with h
              subst h
              refine ⟨rfl, ?_, ?_, rfl⟩
              · show a ≤ iaddr + 2 - 2
                omega
              · show iaddr + 2 - 2 < E
                omega
            · -- continue translating
              have hinv := ih _ (iaddr + 2) (maxCount - 2) 2 E a (by omega) (by omega)
                (by omega) (fun _ => by omega) s' hres
              exact ⟨hinv.1, hinv.2.1, hinv.2.2.1, hinv.2.2.2⟩
        · -- uncompressed
          split at hres
          · -- fewer than 4 bytes remain: break without consuming
            injection hres with h
            subst h
            refine ⟨rfl, ?_, ?_, rfl⟩
            · show a ≤ iaddr - inc
              omega
            · show iaddr - inc < E
              rcases Nat.eq_zero_or_pos inc with hz | hp
              · have := h3 hz
                omega
              · have := h4 (by omega)
                omega
          · next hmc4 =>
            split at hres
            · exact BuildOut.noConfusion hres
            · next instr_high hrd2 =>
              split at hres
              · exact BuildOut.noConfusion hres
              · next pr hdec =>
                split at hres
                · injection hres with h
                  subst h
                  refine ⟨rfl, ?_, ?_, rfl⟩
                  · show a ≤ iaddr + 4 - 4
                    omega
                  · show iaddr + 4 - 4 < E
                    omega
                · have hinv := ih _ (iaddr + 4) (maxCount - 4) 4 E a (by omega) (by omega)
                    (by omega) (fun _ => by omega) s' hres
                  exact ⟨hinv.1, hinv.2.1, hinv.2.2.1, hinv.2.2.2⟩
    · -- fewer than 2 bytes remain
      injection hres with h
      subst h
      refine ⟨rfl, ?_, ?_, rfl⟩
      · show a ≤ iaddr - inc
        omega
      · show iaddr - inc < E
        rcases Nat.eq_zero_or_pos inc with hz | hp
        · have := h3 hz
          omega
        · have := h4 (by omega)
          omega

/-- C3: every block the builder constructs is fully contained in one
physical page — its begin and end addresses agree after masking off the
page offset — and the freshly built block is what gets appended to the
page's list; a block returned by lookup always satisfies the invariant,
because a violating block found at lookup makes `check_block` panic
(halt the emulator) instead of returning it. -/
theorem C3_block_page_invariant :
    (∀ (orc : ExecOracle) (s : RiscvInt) (addr : Nat) (s' : RiscvInt),
        addr < 2 ^ 64 →
        build_exec orc s addr = .ok s' →
        s'.current_block.begin &&& not64 RISCV_PAGE_OFFSET
          = s'.current_block.end_ &&& not64 RISCV_PAGE_OFFSET ∧
        s'.instr (addr >>> RISCV_PAGE_SHIFT)
          = s.instr (addr >>> RISCV_PAGE_SHIFT) ++ [s'.current_block]) ∧
    (∀ (l : List RiscvBlock) (a : Nat) (b : RiscvBlock),
        checkFind l a = some (some b) →
        b.begin &&& not64 RISCV_PAGE_OFFSET = b.end_ &&& not64 RISCV_PAGE_OFFSET) ∧
    (∀ (l : List RiscvBlock) (a : Nat) (b : RiscvBlock),
        b.begin = a →
        b.begin &&& not64 RISCV_PAGE_OFFSET ≠ b.end_ &&& not64 RISCV_PAGE_OFFSET →
        check_block (fun _ => b :: l) a = none) := by
  refine ⟨?_, ?_, ?_⟩
  · intro orc s addr s' haddr hb
    unfold build_exec at hb
    simp only [] at hb
    split at hb
    · exact BuildOut.noConfusion hb
    · have hoff : addr &&& RISCV_PAGE_OFFSET = addr % 4096 := by
        have h := Nat.and_pow_two_sub_one_eq_mod addr 12
        norm_num [RISCV_PAGE_OFFSET] at h ⊢
        exact h
      have hle : addr &&& RISCV_PAGE_OFFSET ≤ 4095 := by
        rw [hoff]
        omega
      have hinv := build_loop_ok_bounds orc
        (RISCV_PAGE_SIZE - (addr &&& RISCV_PAGE_OFFSET)) _ addr
        (RISCV_PAGE_SIZE - (addr &&& RISCV_PAGE_OFFSET)) 0
        (addr + (RISCV_PAGE_SIZE - (addr &&& RISCV_PAGE_OFFSET))) addr rfl (by omega)
        (fun _ => by
          have : (1 : Nat) ≤ RISCV_PAGE_SIZE - (addr &&& RISCV_PAGE_OFFSET) := by
            norm_num [RISCV_PAGE_SIZE]
            omega
          omega)
        (fun h => absurd rfl h) s' hb
      have hbeg : s'.current_block.begin = addr := hinv.1
      have hend1 : addr ≤ s'.current_block.end_ := hinv.2.1
      have hend2 : s'.current_block.end_
          < addr + (RISCV_PAGE_SIZE - (addr &&& RISCV_PAGE_OFFSET)) := hinv.2.2.1
      rw [hoff] at hend2
      norm_num [RISCV_PAGE_SIZE] at hend2
      have hdiv : addr / 4096 = s'.current_block.end_ / 4096 := by omega
      have hlt : s'.current_block.end_ < 2 ^ 64 := by omega
      constructor
      · rw [hbeg]
        exact land_not64_pageoff_congr addr s'.current_block.end_ haddr hlt hdiv
      · have hfun := congrFun hinv.2.2.2 (addr >>> RISCV_PAGE_SHIFT)
        simpa using hfun
  · intro l a b
    induction l with
    | nil =>
      intro h
      simp [checkFind] at h
    | cons hd tl ihl =>
      intro h
      unfold checkFind at h
      split at h
      · split at h
        · exact Option.noConfusion h
        · next hxor =>
          injection h with h2
          injection h2 with h3
          subst h3
          have hz : (hd.begin &&& not64 RISCV_PAGE_OFFSET)
              ^^^ (hd.end_ &&& not64 RISCV_PAGE_OFFSET) = 0 := by
            simpa using hxor
          exact Nat.xor_eq_zero.mp hz
      · exact ihl h
  · intro l a b hba hne
    subst hba
    have hx : (b.begin &&& not64 RISCV_PAGE_OFFSET)
        ^^^ (b.end_ &&& not64 RISCV_PAGE_OFFSET) ≠ 0 := fun h =>
      hne (Nat.xor_eq_zero.mp h)
    simp [check_block, checkFind, hx]

/-- Oracle for the C3 witness: fetches the compressed word `0x4` and
the build-time decoder accepts it, requesting the end of the block. -/
def orcC3 : ExecOracle :=
  { read32v := fun _ _ => .ok 0x4
    read16p := fun _ => .ok 0x4
    dec16 := fun s _ => some s
    dec32 := fun s _ => some s
    decb16 := fun _ => some (0, true)
    decb32 := fun _ => some (0, true)
    virt2phys := fun _ a => some a
    mem_trap := fun _ a => { ttype := IllegalInstruction, val := a }
    runInstr := fun s _ => s }

/-- Concrete hart for the C3 witness with the cache enabled. -/
def hartC3 : RiscvInt := { init_systemmode .X64 with cache_enabled := true }

/-- The single-instruction block the C3 witness builds at the tail of
the first page. -/
def blkC3 : RiscvBlock := { begin := 4094, end_ := 4094, instrs := [{ inc_by := 2, uid := 0 }] }

/-- The hart state after the C3 witness build. -/
def hartC3' : RiscvInt :=
  { hartC3 with
    stop_translating := true
    is_compressed := true
    current_block := blkC3
    instr := fun k => if k = 0 then hartC3.instr k ++ [blkC3] else hartC3.instr k }

/-- A block violating the single-page invariant, used to witness the
panic path of `check_block`. -/
def blkBad : RiscvBlock := { begin := 5, end_ := 5000, instrs := [] }

/-- Witness for C3: a concrete build produces a block contained in its
page and appends it to the index, and a concrete violating block makes
lookup panic. -/
theorem C3_block_page_invariant_witness :
    (4094 < 2 ^ 64 ∧ build_exec orcC3 hartC3 4094 = .ok hartC3' ∧
      (hartC3'.current_block.begin &&& not64 RISCV_PAGE_OFFSET
          = hartC3'.current_block.end_ &&& not64 RISCV_PAGE_OFFSET ∧
       hartC3'.instr (4094 >>> RISCV_PAGE_SHIFT)
          = hartC3.instr (4094 >>> RISCV_PAGE_SHIFT) ++ [hartC3'.current_block])) ∧
    (blkBad.begin = 5 ∧
     blkBad.begin &&& not64 RISCV_PAGE_OFFSET ≠ blkBad.end_ &&& not64 RISCV_PAGE_OFFSET ∧
     check_block (fun _ => [blkBad]) 5 = none) :=
  ⟨⟨by norm_num, rfl,
      C3_block_page_invariant.1 orcC3 hartC3 4094 hartC3' (by norm_num) rfl⟩,
    ⟨rfl, by decide,
      C3_block_page_invariant.2.2 [] 5 blkBad rfl (by decide)⟩⟩
